import Mathlib

/-!
Shallow embedding of `tasks/R2R/env.py` (batched Room-to-Room navigation
environment): the shortest-path teacher oracle `R2RBatch._shortest_path_action`,
the minibatch cursor `R2RBatch._next_minibatch`, the simulator facade
`EnvBatch` (`newEpisodes`, `makeSimpleActions`) and `R2RBatch.set_beam_size`,
together with proofs checking the specification's claims about them.

Angles are real numbers (Python floats are modelled by `ℝ`); viewpoint and
scan identifiers are strings as in the source.  The external pieces the code
reads but does not define (the precomputed shortest-path table `self.paths`,
the node positions `self.graphs[scan].node[v]['position']`, `random.shuffle`,
`sorted`) enter as explicit function parameters.
-/

namespace R2REnv

open Real

/-- Euclidean 3-vector, modelling the numpy `position` / `point` arrays.
`target_rel[0]` is `x`, `target_rel[1]` is `y`. -/
structure Point3 where
  x : ℝ
  y : ℝ
  z : ℝ

/-- One entry of `state.navigableLocations`: the fields the oracle reads. -/
structure NavLoc where
  viewpointId : String
  rel_heading : ℝ
  rel_elevation : ℝ

/-- The simulator state fields consumed by `_shortest_path_action`:
`state.scanId`, `state.location.viewpointId`, `state.heading`,
`state.elevation`, `state.viewIndex`, `state.location.point`,
`state.navigableLocations`. -/
structure SimState where
  scanId : String
  viewpointId : String
  heading : ℝ
  elevation : ℝ
  viewIndex : ℕ
  point : Point3
  navigableLocations : List NavLoc

/-- Two-argument arctangent, modelling Python's `math.atan2 y x` (C `atan2`):
the angle of the point `(x, y)` in `(-π, π]`, with `atan2 0 0 = 0`. -/
noncomputable def atan2 (y x : ℝ) : ℝ :=
  if 0 < x then arctan (y / x)
  else if x < 0 ∧ 0 ≤ y then arctan (y / x) + π
  else if x < 0 ∧ y < 0 then arctan (y / x) - π
  else if x = 0 ∧ 0 < y then π / 2
  else if x = 0 ∧ y < 0 then -(π / 2)
  else 0

/-- The `for i,loc in enumerate(state.navigableLocations): if loc.viewpointId
== nextViewpointId:` search: first match together with its enumeration
index. -/
def findLoc : List NavLoc → String → Option (ℕ × NavLoc)
  | [], _ => none
  | l :: rest, next =>
      if l.viewpointId = next then some (0, l)
      else (findLoc rest next).map (fun p => (p.1 + 1, p.2))

/-- The decision taken by `_shortest_path_action` once the next viewpoint has
been found at enumeration index `i` in the navigable-location list (the body
of the `if loc.viewpointId == nextViewpointId` branch, lines 258-268). -/
noncomputable def decideForLoc (i : ℕ) (loc : NavLoc) (viewIndex : ℕ) :
    ℤ × ℤ × ℤ :=
  if loc.rel_heading > π / 6 then (0, 1, 0)
  else if loc.rel_heading < -(π / 6) then (0, -1, 0)
  else if loc.rel_elevation > π / 6 ∧ viewIndex / 12 < 2 then (0, 0, 1)
  else if loc.rel_elevation < -(π / 6) ∧ viewIndex / 12 > 0 then (0, 0, -1)
  else ((i : ℤ), 0, 0)

/-- The `if target_heading < 0: target_heading += 2.0*math.pi` normalization
(lines 277-278). -/
noncomputable def norm2pi (a : ℝ) : ℝ :=
  if a < 0 then a + 2 * π else a

/-- The `target_heading` computed at lines 275-278: bearing of the next
viewpoint's position relative to the current position, converted from the
`atan2` convention to heading measured clockwise from the y axis.  `pos scanId
v` is `self.graphs[scanId].node[v]['position']`; `target_rel` is that position
minus `state.location.point`. -/
noncomputable def target_bearing (pos : String → String → Point3)
    (state : SimState) (nextViewpointId : String) : ℝ :=
  norm2pi (π / 2 -
    atan2 ((pos state.scanId nextViewpointId).y - state.point.y)
      ((pos state.scanId nextViewpointId).x - state.point.x))

/-- The fallback of `_shortest_path_action` when the next viewpoint is not in
the navigable-location list (lines 269-283): neutralize camera elevation,
otherwise turn toward the bearing of the next viewpoint. -/
noncomputable def fallback (pos : String → String → Point3) (state : SimState)
    (nextViewpointId : String) : ℤ × ℤ × ℤ :=
  if state.viewIndex / 12 = 0 then (0, 0, 1)
  else if state.viewIndex / 12 = 2 then (0, 0, -1)
  else if state.heading > target_bearing pos state nextViewpointId ∧
      state.heading - target_bearing pos state nextViewpointId < π then
    (0, -1, 0)
  else if target_bearing pos state nextViewpointId > state.heading ∧
      target_bearing pos state nextViewpointId - state.heading > π then
    (0, -1, 0)
  else (0, 1, 0)

/-- Embedding of `R2RBatch._shortest_path_action(state, goalViewpointId)` (lines 249-283).
`paths scan src dst` is the precomputed table entry
`self.paths[scan][src][dst]`; Python's `path[1]` (the `nextViewpointId`
local) is modelled by `getD 1` (the claims only concern states where the
path has a second node). -/
noncomputable def shortest_path_action
    (paths : String → String → String → List String)
    (pos : String → String → Point3)
    (state : SimState) (goalViewpointId : String) : ℤ × ℤ × ℤ :=
  if state.viewpointId = goalViewpointId then (0, 0, 0)
  else
    match findLoc state.navigableLocations
        ((paths state.scanId state.viewpointId goalViewpointId).getD 1 "") with
    | some il => decideForLoc il.1 il.2 state.viewIndex
    | none =>
        fallback pos state
          ((paths state.scanId state.viewpointId goalViewpointId).getD 1 "")

/-- One entry of `R2RBatch.data`: an instruction instance.  Only the fields
the embedded operations read are kept: a distinguishing identifier
(`instr_id`) and the token length used by the optional sort. -/
structure Task where
  instr_id : ℕ
  instr_length : ℕ
deriving DecidableEq

/-- The mutable pair `(self.data, self.ix)` of `R2RBatch`. -/
structure BatchState where
  data : List Task
  ix : ℕ
deriving DecidableEq

/-- Embedding of `R2RBatch._next_minibatch(sort)` (lines 232-242).  Python's
`self.data[self.ix : self.ix+self.batch_size]` is `(data.drop ix).take
batch_size`.  The external `random.shuffle` and `sorted(..., key=instr_length,
reverse=True)` are passed in as opaque functions `shuffle` and `sortFn`.
Returns the produced `self.batch` together with the new `(data, ix)`. -/
def next_minibatch (shuffle sortFn : List Task → List Task) (batch_size : ℕ)
    (sort : Bool) (s : BatchState) : List Task × BatchState :=
  let batch := (s.data.drop s.ix).take batch_size
  let step :=
    if batch.length < batch_size then
      let data2 := shuffle s.data
      let ix2 := batch_size - batch.length
      (batch ++ data2.take ix2, BatchState.mk data2 ix2)
    else
      (batch, BatchState.mk s.data (s.ix + batch_size))
  (if sort then sortFn step.1 else step.1, step.2)

/-- Iterate `_next_minibatch` (with `sort=False`) `k` times, concatenating the
minibatches it returns, as successive `reset()` calls do. -/
def run_minibatches (shuffle sortFn : List Task → List Task) (batch_size : ℕ) :
    ℕ → BatchState → List Task × BatchState
  | 0, s => ([], s)
  | k + 1, s =>
      let p := next_minibatch shuffle sortFn batch_size false s
      let q := run_minibatches shuffle sortFn batch_size k p.2
      (p.1 ++ q.1, q.2)

/-- The episode state a `MatterSim.Simulator` is loaded with:
`WorldState(scanId, viewpointId, heading, elevation)`. -/
structure WorldState where
  scanId : String
  viewpointId : String
  heading : ℝ
  elevation : ℝ

/-- A simulator handle, modelled by the episode it was last loaded with via
`sim.newEpisode` (`none` before any episode is loaded). -/
def Sim := Option WorldState

/-- Embedding of `EnvBatch`: the 2D array `self.sims` of simulator handles, with the
constructor arguments `batch_size` and `beam_size`. -/
structure EnvBatch where
  sims : List (List Sim)
  batch_size : ℕ
  beam_size : ℕ

/-- Embedding of `EnvBatch.__init__`: `batch_size` beams of `beam_size` fresh (not yet
episode-loaded) simulators. -/
def EnvBatch.init (batch_size beam_size : ℕ) : EnvBatch :=
  EnvBatch.mk
    (List.replicate batch_size (List.replicate beam_size (none : Sim)))
    batch_size beam_size

/-- Embedding of `load_world_state(self.sims[i][0], world_state)`: the beam-slot-0
simulator is loaded with the new episode, the other slots are untouched. -/
def setSlot0 (beam : List Sim) (w : WorldState) : List Sim :=
  match beam with
  | [] => []
  | _ :: rest => some w :: rest

/-- One element of the `world_states` list built by `newEpisodes`: the bare
`WorldState` when `beamed` is false, the singleton `[world_state]` when
`beamed` is true. -/
inductive EpisodeEntry
  | single (w : WorldState)
  | beam (ws : List WorldState)

/-- The loop body of `newEpisodes`: walk the three zipped input lists,
building `WorldState(scanId, viewpointId, heading, 0)` per agent and loading
it into that agent's beam-slot-0 simulator.  Returns the `world_states` list
and the updated simulator array. -/
def newEpisodesLoop (beamed : Bool) :
    List String → List String → List ℝ → List (List Sim) →
    List EpisodeEntry × List (List Sim)
  | s :: ss, v :: vs, h :: hs, beam :: beams =>
      let w := WorldState.mk s v h 0
      let rest := newEpisodesLoop beamed ss vs hs beams
      ((if beamed then EpisodeEntry.beam [w] else EpisodeEntry.single w)
          :: rest.1,
        setSlot0 beam w :: rest.2)
  | _, _, _, sims => ([], sims)

/-- Embedding of `EnvBatch.newEpisodes(scanIds, viewpointIds, headings, beamed)`
(lines 130-143).  The three `assert` statements become the guard; a failed
assertion (fatal `AssertionError`) is `none`. -/
def EnvBatch.newEpisodes (env : EnvBatch) (scanIds viewpointIds : List String)
    (headings : List ℝ) (beamed : Bool) :
    Option (List EpisodeEntry × EnvBatch) :=
  if scanIds.length = viewpointIds.length ∧
      headings.length = viewpointIds.length ∧
      scanIds.length = env.sims.length then
    let r := newEpisodesLoop beamed scanIds viewpointIds headings env.sims
    some (r.1, EnvBatch.mk r.2 env.batch_size env.beam_size)
  else none

/-- The `if`/`elif` chain of `EnvBatch.makeSimpleActions` translating one
simple action index into the primitive `sim.makeAction` tuple (lines
167-179); `sys.exit` on any other index is `none`. -/
def makeSimpleAction (index : ℤ) : Option (ℤ × ℤ × ℤ) :=
  if index = 0 then some (1, 0, 0)
  else if index = 1 then some (0, -1, 0)
  else if index = 2 then some (0, 1, 0)
  else if index = 3 then some (0, 0, 1)
  else if index = 4 then some (0, 0, -1)
  else none

/-- Embedding of `EnvBatch.makeSimpleActions(simple_indices)`: the primitive tuple applied
to each agent's simulator in order; `none` when any index makes the process
exit. -/
def makeSimpleActions : List ℤ → Option (List (ℤ × ℤ × ℤ))
  | [] => some []
  | i :: rest =>
      match makeSimpleAction i, makeSimpleActions rest with
      | some a, some as2 => some (a :: as2)
      | _, _ => none

/-- Translation of the specification's 5-way action map, written from the
claim's words (not from the code), for comparison with `makeSimpleAction`:
0 forward, 1 turn left, 2 turn right, 3 look up, 4 look down. -/
def simpleActionSpec (index : ℤ) : ℤ × ℤ × ℤ :=
  if index = 0 then (1, 0, 0)
  else if index = 1 then (0, -1, 0)
  else if index = 2 then (0, 1, 0)
  else if index = 3 then (0, 0, 1)
  else (0, 0, -1)

/-- The fields of `R2RBatch` that `set_beam_size` touches.  `beam_size` is
`none` while the attribute is not yet set (the `except` arm of the `try`),
and `env` is the current `EnvBatch` if one was built. -/
structure R2RBatchState where
  batch_size : ℕ
  beam_size : Option ℕ
  env : Option EnvBatch

/-- Embedding of `R2RBatch.set_beam_size(beam_size)` (lines 211-219): rebuild the
`EnvBatch` exactly when the requested size differs from the current one or no
beam size is set yet. -/
def set_beam_size (r : R2RBatchState) (beam_size : ℕ) : R2RBatchState :=
  let invalid :=
    match r.beam_size with
    | none => true
    | some b => decide (¬ beam_size = b)
  if invalid then
    R2RBatchState.mk r.batch_size (some beam_size)
      (some (EnvBatch.init r.batch_size beam_size))
  else r

/-- Translation of the specification's words (not of the code): the angular
distance travelled when turning left (decreasing heading, clockwise-from-north
convention) from heading `h` to bearing `t`, both taken in `[0, 2π)`, with
wraparound across the `0`/`2π` boundary. -/
noncomputable def leftTurnDist (h t : ℝ) : ℝ :=
  if t ≤ h then h - t else h - t + 2 * π

/-- Translation of the specification's words (not of the code): the angular
distance travelled when turning right (increasing heading) from heading `h`
to bearing `t`, both taken in `[0, 2π)`, with wraparound. -/
noncomputable def rightTurnDist (h t : ℝ) : ℝ :=
  if h ≤ t then t - h else t - h + 2 * π

/-! Concrete fixtures used by counterexamples and witnesses.  All use one
scan `"s"` whose shortest path from `"a"` to `"b"` is `["a", "b"]`, with
`"b"` positioned one unit along the x axis from `"a"` at the origin. -/

/-- Fixture shortest-path table: every query answers `["a", "b"]`. -/
def exPaths : String → String → String → List String := fun _ _ _ => ["a", "b"]

/-- Fixture node positions: every node sits at `(1, 0, 0)`. -/
def exPos : String → String → Point3 := fun _ _ => Point3.mk 1 0 0

/-- Fixture state at `"a"`, heading 0, middle elevation band (view index 12),
with the next hop `"b"` navigable at index 1, facing it squarely. -/
def stateMove : SimState :=
  SimState.mk "s" "a" 0 0 12 (Point3.mk 0 0 0)
    [NavLoc.mk "a" 0 0, NavLoc.mk "b" 0 0]

/-- Fixture state in the middle elevation band whose next hop `"b"` is
navigable at index 1 with relative heading 0 and relative elevation `π/3`
(above the 30° threshold). -/
noncomputable def stateUp : SimState :=
  SimState.mk "s" "a" 0 0 12 (Point3.mk 0 0 0)
    [NavLoc.mk "a" 0 0, NavLoc.mk "b" 0 (π / 3)]

/-- Fixture state in the middle elevation band with no navigable locations
(the next hop is occluded). -/
def stateOccluded : SimState :=
  SimState.mk "s" "a" 0 0 12 (Point3.mk 0 0 0) []

/-- Fixture state in the top elevation band (view index 24). -/
def stateTop : SimState :=
  SimState.mk "s" "a" 0 0 24 (Point3.mk 0 0 0) []

/-- Fixture state in the bottom elevation band (view index 0). -/
def stateBottom : SimState :=
  SimState.mk "s" "a" 0 0 0 (Point3.mk 0 0 0) []

/-! Helper lemmas about the oracle's components. -/

theorem findLoc_eq_some (next : String) :
    ∀ (l : List NavLoc) (j : ℕ) (loc : NavLoc),
      findLoc l next = some (j, loc) →
        l[j]? = some loc ∧ loc.viewpointId = next := by
  intro l
  induction l with
  | nil => intro j loc h; simp [findLoc] at h
  | cons a rest ih =>
      intro j loc h
      unfold findLoc at h
      by_cases ha : a.viewpointId = next
      · rw [if_pos ha] at h
        simp only [Option.some.injEq, Prod.mk.injEq] at h
        obtain ⟨hj, hl⟩ := h
        subst hl
        cases hj
        exact ⟨List.getElem?_cons_zero, ha⟩
      · rw [if_neg ha] at h
        rcases hm : findLoc rest next with _ | ⟨j0, loc0⟩
        · rw [hm] at h
          exact Option.noConfusion h
        · rw [hm] at h
          simp only [Option.map_some', Option.some.injEq, Prod.mk.injEq] at h
          obtain ⟨hj, hl⟩ := h
          subst hl
          obtain ⟨hg, hv⟩ := ih j0 loc0 hm
          refine ⟨?_, hv⟩
          rw [← hj]
          simpa using hg

theorem fallback_fst (pos : String → String → Point3) (state : SimState)
    (next : String) : (fallback pos state next).1 = 0 := by
  unfold fallback
  split_ifs <;> rfl

theorem shortest_path_action_at_goal
    (paths : String → String → String → List String)
    (pos : String → String → Point3)
    (state : SimState) (goal : String)
    (hgoal : state.viewpointId = goal) :
    shortest_path_action paths pos state goal = (0, 0, 0) := by
  unfold shortest_path_action
  rw [if_pos hgoal]

theorem shortest_path_action_eq_decide
    (paths : String → String → String → List String)
    (pos : String → String → Point3)
    (state : SimState) (goal : String) (j : ℕ) (loc : NavLoc)
    (hgoal : ¬ state.viewpointId = goal)
    (hf : findLoc state.navigableLocations
      ((paths state.scanId state.viewpointId goal).getD 1 "") = some (j, loc)) :
    shortest_path_action paths pos state goal
      = decideForLoc j loc state.viewIndex := by
  unfold shortest_path_action
  rw [if_neg hgoal, hf]

theorem shortest_path_action_eq_fallback
    (paths : String → String → String → List String)
    (pos : String → String → Point3)
    (state : SimState) (goal : String)
    (hgoal : ¬ state.viewpointId = goal)
    (hf : findLoc state.navigableLocations
      ((paths state.scanId state.viewpointId goal).getD 1 "") = none) :
    shortest_path_action paths pos state goal
      = fallback pos state
          ((paths state.scanId state.viewpointId goal).getD 1 "") := by
  unfold shortest_path_action
  rw [if_neg hgoal, hf]

/-- C4: at the goal viewpoint the oracle returns the no-op action `(0,0,0)`;
the shortest-path table `paths`, the position table `pos` and the
navigable-location list are arbitrary (they are not consulted). -/
theorem C4_oracle_noop_at_goal
    (paths : String → String → String → List String)
    (pos : String → String → Point3)
    (state : SimState) (goalViewpointId : String)
    (h : state.viewpointId = goalViewpointId) :
    shortest_path_action paths pos state goalViewpointId = (0, 0, 0) :=
  shortest_path_action_at_goal paths pos state goalViewpointId h

/-- Witness for C4 at a concrete state standing at its goal `"a"`, with a
nonempty navigable-location list and the fixture tables. -/
theorem C4_oracle_noop_at_goal_witness :
    stateMove.viewpointId = "a" ∧
    shortest_path_action exPaths exPos stateMove "a" = (0, 0, 0) :=
  ⟨rfl, C4_oracle_noop_at_goal exPaths exPos stateMove "a" rfl⟩

/-- C3: the oracle never returns look-up `(0,0,1)` from the top elevation
band (`viewIndex / 12 = 2`) and never returns look-down `(0,0,-1)` from the
bottom band (`viewIndex / 12 = 0`), for every state, goal and tables. -/
theorem C3_elevation_band_gating
    (paths : String → String → String → List String)
    (pos : String → String → Point3)
    (state : SimState) (goal : String) :
    (state.viewIndex / 12 = 2 →
      shortest_path_action paths pos state goal ≠ (0, 0, 1)) ∧
    (state.viewIndex / 12 = 0 →
      shortest_path_action paths pos state goal ≠ (0, 0, -1)) := by
  constructor <;> intro hband <;> by_cases hgoal : state.viewpointId = goal
  · rw [shortest_path_action_at_goal paths pos state goal hgoal]
    decide
  · rcases hf : findLoc state.navigableLocations
        ((paths state.scanId state.viewpointId goal).getD 1 "") with _ | ⟨j, loc⟩
    · rw [shortest_path_action_eq_fallback paths pos state goal hgoal hf]
      unfold fallback
      rw [if_neg (by omega : ¬ state.viewIndex / 12 = 0), if_pos hband]
      decide
    · rw [shortest_path_action_eq_decide paths pos state goal j loc hgoal hf]
      unfold decideForLoc
      split_ifs with h1 h2 h3 h4
      · decide
      · decide
      · exact absurd hband (by omega)
      · decide
      · intro hc
        have h22 := congrArg (fun p : ℤ × ℤ × ℤ => p.2.2) hc
        simp at h22
  · rw [shortest_path_action_at_goal paths pos state goal hgoal]
    decide
  · rcases hf : findLoc state.navigableLocations
        ((paths state.scanId state.viewpointId goal).getD 1 "") with _ | ⟨j, loc⟩
    · rw [shortest_path_action_eq_fallback paths pos state goal hgoal hf]
      unfold fallback
      rw [if_pos hband]
      decide
    · rw [shortest_path_action_eq_decide paths pos state goal j loc hgoal hf]
      unfold decideForLoc
      split_ifs with h1 h2 h3 h4
      · decide
      · decide
      · decide
      · exact absurd hband (by omega)
      · intro hc
        have h22 := congrArg (fun p : ℤ × ℤ × ℤ => p.2.2) hc
        simp at h22

/-- Witness for C3 at concrete top-band and bottom-band states. -/
theorem C3_elevation_band_gating_witness :
    stateTop.viewIndex / 12 = 2 ∧
    shortest_path_action exPaths exPos stateTop "b" ≠ (0, 0, 1) ∧
    stateBottom.viewIndex / 12 = 0 ∧
    shortest_path_action exPaths exPos stateBottom "b" ≠ (0, 0, -1) :=
  ⟨rfl, (C3_elevation_band_gating exPaths exPos stateTop "b").1 rfl,
    rfl, (C3_elevation_band_gating exPaths exPos stateBottom "b").2 rfl⟩

/-- C5: whenever the oracle returns a move action `(i,0,0)` with `i > 0`, the
navigable location at index `i` exists and its relative heading has magnitude
at most 30° (`π/6`). -/
theorem C5_move_turn_bound
    (paths : String → String → String → List String)
    (pos : String → String → Point3)
    (state : SimState) (goal : String) (i : ℕ) (hi : 0 < i)
    (h : shortest_path_action paths pos state goal = ((i : ℤ), 0, 0)) :
    ∃ loc, state.navigableLocations[i]? = some loc ∧
      -(π / 6) ≤ loc.rel_heading ∧ loc.rel_heading ≤ π / 6 := by
  by_cases hgoal : state.viewpointId = goal
  · rw [shortest_path_action_at_goal paths pos state goal hgoal] at h
    simp only [Prod.mk.injEq] at h
    have := h.1
    omega
  · rcases hf : findLoc state.navigableLocations
        ((paths state.scanId state.viewpointId goal).getD 1 "") with _ | ⟨j, loc⟩
    · rw [shortest_path_action_eq_fallback paths pos state goal hgoal hf] at h
      have h0 := fallback_fst pos state
        ((paths state.scanId state.viewpointId goal).getD 1 "")
      rw [h] at h0
      simp only at h0
      omega
    · rw [shortest_path_action_eq_decide paths pos state goal j loc hgoal hf] at h
      have hget := (findLoc_eq_some _ state.navigableLocations j loc hf).1
      unfold decideForLoc at h
      split_ifs at h with h1 h2 h3 h4
      · simp at h
      · simp at h
      · simp at h
      · simp at h
      · simp only [Prod.mk.injEq] at h
        have hj : j = i := by
          have := h.1
          omega
        subst hj
        push_neg at h1 h2
        exact ⟨loc, hget, h2, h1⟩

/-- Witness for C5: at a concrete state the oracle moves to index 1, whose
relative heading 0 is within 30°. -/
theorem C5_move_turn_bound_witness :
    shortest_path_action exPaths exPos stateMove "b" = ((1 : ℤ), 0, 0) ∧
    ∃ loc, stateMove.navigableLocations[1]? = some loc ∧
      -(π / 6) ≤ loc.rel_heading ∧ loc.rel_heading ≤ π / 6 := by
  have h6 : (0 : ℝ) < π / 6 := by positivity
  have hf : findLoc stateMove.navigableLocations
      ((exPaths stateMove.scanId stateMove.viewpointId "b").getD 1 "")
      = some (1, NavLoc.mk "b" 0 0) := rfl
  have hmove : shortest_path_action exPaths exPos stateMove "b"
      = ((1 : ℤ), 0, 0) := by
    rw [shortest_path_action_eq_decide exPaths exPos stateMove "b" 1
      (NavLoc.mk "b" 0 0) (by decide) hf]
    unfold decideForLoc
    rw [if_neg (by simpa using h6.not_lt), if_neg (by simp; linarith),
      if_neg (fun hc => absurd hc.1 (by simpa using h6.not_lt)),
      if_neg (fun hc => absurd hc.1 (by simp; linarith))]
    norm_num
  exact ⟨hmove, C5_move_turn_bound exPaths exPos stateMove "b" 1 one_pos hmove⟩

/-- C1 as stated is false: at a concrete state in the middle elevation band
(view index 12, group 1) whose next hop sits at navigable index 1 with
relative heading 0 and relative elevation `π/3 > 30°`, the claim's rules
(look up only from the *bottom* band, else move) predict the move action
`(1,0,0)`, but the code's `state.viewIndex//12 < 2` guard fires and the
oracle returns look-up `(0,0,1)`. -/
theorem C1_counterexample :
    stateUp.viewpointId ≠ "b" ∧
    findLoc stateUp.navigableLocations
      ((exPaths stateUp.scanId stateUp.viewpointId "b").getD 1 "")
      = some (1, NavLoc.mk "b" 0 (π / 3)) ∧
    stateUp.viewIndex / 12 = 1 ∧
    ¬ ((0 : ℝ) > π / 6) ∧ ¬ ((0 : ℝ) < -(π / 6)) ∧ π / 3 > π / 6 ∧
    shortest_path_action exPaths exPos stateUp "b" = (0, 0, 1) ∧
    ((0 : ℤ), (0 : ℤ), (1 : ℤ)) ≠ ((1 : ℤ), (0 : ℤ), (0 : ℤ)) := by
  have hpi := Real.pi_pos
  refine ⟨by decide, rfl, rfl, by simp; linarith, by simp; linarith,
    by linarith, ?_, by decide⟩
  rw [shortest_path_action_eq_decide exPaths exPos stateUp "b" 1
    (NavLoc.mk "b" 0 (π / 3)) (by decide) rfl]
  unfold decideForLoc
  rw [if_neg (not_lt.mpr (by simp; linarith)),
    if_neg (not_lt.mpr (by simp; linarith)),
    if_pos ⟨by simp; linarith, by decide⟩]

/-- C1 amended: when the oracle is not at the goal and the next hop is found
at navigable index `i` with relative heading `rh` and relative elevation
`re`, the first matching rule applies in order: turn right if `rh > 30°`;
else turn left if `rh < −30°`; else look up if `re > 30°` and the camera is
*not in the top* elevation band (`viewIndex/12 < 2`, i.e. groups 0 or 1, not
only group 0 as claimed); else look down if `re < −30°` and the camera is
*not in the bottom* band (`viewIndex/12 > 0`, groups 1 or 2, not only group
2 as claimed); else move `(i,0,0)`. -/
theorem C1_amended_first_match
    (paths : String → String → String → List String)
    (pos : String → String → Point3)
    (state : SimState) (goal : String) (i : ℕ) (loc : NavLoc)
    (hgoal : ¬ state.viewpointId = goal)
    (hfind : findLoc state.navigableLocations
      ((paths state.scanId state.viewpointId goal).getD 1 "") = some (i, loc)) :
    (loc.rel_heading > π / 6 →
      shortest_path_action paths pos state goal = (0, 1, 0)) ∧
    (loc.rel_heading < -(π / 6) →
      shortest_path_action paths pos state goal = (0, -1, 0)) ∧
    (-(π / 6) ≤ loc.rel_heading → loc.rel_heading ≤ π / 6 →
      loc.rel_elevation > π / 6 → state.viewIndex / 12 < 2 →
      shortest_path_action paths pos state goal = (0, 0, 1)) ∧
    (-(π / 6) ≤ loc.rel_heading → loc.rel_heading ≤ π / 6 →
      loc.rel_elevation < -(π / 6) → state.viewIndex / 12 > 0 →
      shortest_path_action paths pos state goal = (0, 0, -1)) ∧
    (-(π / 6) ≤ loc.rel_heading → loc.rel_heading ≤ π / 6 →
      ¬ (loc.rel_elevation > π / 6 ∧ state.viewIndex / 12 < 2) →
      ¬ (loc.rel_elevation < -(π / 6) ∧ state.viewIndex / 12 > 0) →
      shortest_path_action paths pos state goal = ((i : ℤ), 0, 0)) := by
  have hpi := Real.pi_pos
  rw [shortest_path_action_eq_decide paths pos state goal i loc hgoal hfind]
  unfold decideForLoc
  refine ⟨fun h1 => ?_, fun h2 => ?_, fun ha hb hc hd => ?_,
    fun ha hb hc hd => ?_, fun ha hb hc hd => ?_⟩
  · rw [if_pos h1]
  · rw [if_neg (not_lt.mpr (by linarith)), if_pos h2]
  · rw [if_neg (not_lt.mpr hb), if_neg (not_lt.mpr ha), if_pos ⟨hc, hd⟩]
  · rw [if_neg (not_lt.mpr hb), if_neg (not_lt.mpr ha),
      if_neg (fun hcon => absurd hcon.1 (not_lt.mpr (by linarith))),
      if_pos ⟨hc, hd⟩]
  · rw [if_neg (not_lt.mpr hb), if_neg (not_lt.mpr ha), if_neg hc, if_neg hd]

/-- Witness for the amended C1: at a concrete middle-band state facing its
next hop squarely (relative heading and elevation 0) the last rule applies
and the oracle moves to index 1. -/
theorem C1_amended_first_match_witness :
    ¬ stateMove.viewpointId = "b" ∧
    shortest_path_action exPaths exPos stateMove "b" = ((1 : ℤ), 0, 0) := by
  have h6 : (0 : ℝ) < π / 6 := by positivity
  have h := (C1_amended_first_match exPaths exPos stateMove "b" 1
    (NavLoc.mk "b" 0 0) (by decide) rfl).2.2.2.2
  refine ⟨by decide, ?_⟩
  have hres := h (by simp; linarith) (by simp; linarith)
    (fun hc => absurd hc.1 (by simpa using h6.not_lt))
    (fun hc => absurd hc.1 (by simp; linarith))
  simpa using hres

/-! Range facts about `atan2` and the normalized bearing, needed for C2. -/

theorem neg_pi_lt_atan2 (y x : ℝ) : -π < atan2 y x := by
  have hpi := Real.pi_pos
  have harc1 := Real.arctan_lt_pi_div_two (y / x)
  have harc2 := Real.neg_pi_div_two_lt_arctan (y / x)
  unfold atan2
  split_ifs with h1 h2 h3 h4 h5
  · linarith
  · linarith
  · have hyx : 0 < y / x := div_pos_iff.mpr (Or.inr ⟨h3.2, h3.1⟩)
    have harc3 : 0 < arctan (y / x) := by
      have := Real.arctan_strictMono hyx
      rwa [Real.arctan_zero] at this
    linarith
  · linarith
  · linarith
  · linarith

theorem atan2_le_pi (y x : ℝ) : atan2 y x ≤ π := by
  have hpi := Real.pi_pos
  have harc1 := Real.arctan_lt_pi_div_two (y / x)
  have harc2 := Real.neg_pi_div_two_lt_arctan (y / x)
  unfold atan2
  split_ifs with h1 h2 h3 h4 h5
  · linarith
  · have hyx : y / x ≤ 0 := div_nonpos_iff.mpr (Or.inl ⟨h2.2, le_of_lt h2.1⟩)
    have harc3 : arctan (y / x) ≤ 0 := by
      rcases eq_or_lt_of_le hyx with he | hl
      · rw [he, Real.arctan_zero]
      · have := Real.arctan_strictMono hl
        rw [Real.arctan_zero] at this
        exact le_of_lt this
    linarith
  · linarith
  · linarith
  · linarith
  · linarith

theorem target_bearing_mem (pos : String → String → Point3) (state : SimState)
    (next : String) :
    0 ≤ target_bearing pos state next ∧ target_bearing pos state next < 2 * π := by
  have hpi := Real.pi_pos
  unfold target_bearing norm2pi
  have h1 := neg_pi_lt_atan2 ((pos state.scanId next).y - state.point.y)
    ((pos state.scanId next).x - state.point.x)
  have h2 := atan2_le_pi ((pos state.scanId next).y - state.point.y)
    ((pos state.scanId next).x - state.point.x)
  split_ifs with h
  · constructor <;> linarith
  · constructor <;> linarith

theorem turnDist_lt_iff (hd t : ℝ) :
    leftTurnDist hd t < rightTurnDist hd t ↔
      ((hd > t ∧ hd - t < π) ∨ (t > hd ∧ t - hd > π)) := by
  have hpi := Real.pi_pos
  unfold leftTurnDist rightTurnDist
  constructor
  · intro hlt
    split_ifs at hlt with h1 h2 h2
    · exfalso
      have := le_antisymm h2 h1
      linarith
    · exact Or.inl ⟨lt_of_le_of_ne h1 (fun he => h2 (le_of_eq he.symm)), by linarith⟩
    · exact Or.inr ⟨not_le.mp h1, by linarith⟩
    · exact absurd (le_of_lt (not_le.mp h1)) h2
  · intro hor
    split_ifs with h1 h2 h2
    · exfalso
      have := le_antisymm h2 h1
      rcases hor with ⟨ha, _⟩ | ⟨hb, _⟩ <;> linarith
    · rcases hor with ⟨_, ha⟩ | ⟨hb, _⟩
      · linarith
      · exact absurd hb (not_lt.mpr h1)
    · rcases hor with ⟨ha, _⟩ | ⟨_, hb⟩
      · exact absurd ha (not_lt.mpr h2)
      · linarith
    · exact absurd (le_of_lt (not_le.mp h1)) h2

/-- C2: when the oracle is not at the goal, the next hop is not navigable and
the camera is in the middle elevation band, the normalized target bearing
lies in `[0, 2π)`, the oracle returns either turn-left or turn-right
(the branches are exhaustive), and it turns left exactly when the leftward
angular path from the current heading to the bearing (with wraparound) is
strictly shorter than the rightward one. -/
theorem C2_occluded_bearing_turn
    (paths : String → String → String → List String)
    (pos : String → String → Point3)
    (state : SimState) (goal : String)
    (hgoal : ¬ state.viewpointId = goal)
    (hfind : findLoc state.navigableLocations
      ((paths state.scanId state.viewpointId goal).getD 1 "") = none)
    (hband : state.viewIndex / 12 = 1)
    (t : ℝ) (r : ℤ × ℤ × ℤ)
    (ht : t = target_bearing pos state
      ((paths state.scanId state.viewpointId goal).getD 1 ""))
    (hr : r = shortest_path_action paths pos state goal) :
    (0 ≤ t ∧ t < 2 * π) ∧
    (r = (0, -1, 0) ∨ r = (0, 1, 0)) ∧
    (r = (0, -1, 0) ↔
      leftTurnDist state.heading t < rightTurnDist state.heading t) := by
  subst ht
  subst hr
  rw [shortest_path_action_eq_fallback paths pos state goal hgoal hfind]
  refine ⟨target_bearing_mem pos state _, ?_⟩
  unfold fallback
  rw [if_neg (by omega : ¬ state.viewIndex / 12 = 0),
    if_neg (by omega : ¬ state.viewIndex / 12 = 2),
    turnDist_lt_iff state.heading
      (target_bearing pos state
        ((paths state.scanId state.viewpointId goal).getD 1 ""))]
  split_ifs with hA hB
  · exact ⟨Or.inl rfl, ⟨fun _ => Or.inl hA, fun _ => rfl⟩⟩
  · exact ⟨Or.inl rfl, ⟨fun _ => Or.inr hB, fun _ => rfl⟩⟩
  · exact ⟨Or.inr rfl, ⟨fun heq => absurd heq (by decide),
      fun hor => (hor.elim hA hB).elim⟩⟩

/-- Witness for C2 at a concrete occluded middle-band state: the next hop
`"b"` sits one unit along the x axis, so its bearing is `π/2`; with heading
0 the leftward path (`3π/2`) is longer than the rightward one (`π/2`), and
the oracle indeed turns right. -/
theorem C2_occluded_bearing_turn_witness :
    (0 ≤ π / 2 ∧ π / 2 < 2 * π) ∧
    (shortest_path_action exPaths exPos stateOccluded "b" = (0, -1, 0) ∨
      shortest_path_action exPaths exPos stateOccluded "b" = (0, 1, 0)) ∧
    (shortest_path_action exPaths exPos stateOccluded "b" = (0, -1, 0) ↔
      leftTurnDist stateOccluded.heading (π / 2) <
        rightTurnDist stateOccluded.heading (π / 2)) := by
  have hpi := Real.pi_pos
  have h1 : (exPos stateOccluded.scanId "b").y - stateOccluded.point.y = 0 := by
    norm_num [exPos, stateOccluded]
  have h2 : (exPos stateOccluded.scanId "b").x - stateOccluded.point.x = 1 := by
    norm_num [exPos, stateOccluded]
  have hatan : atan2 0 1 = 0 := by
    unfold atan2
    rw [if_pos one_pos]
    norm_num [Real.arctan_zero]
  have hbear : target_bearing exPos stateOccluded "b" = π / 2 := by
    unfold target_bearing
    rw [h1, h2, hatan]
    unfold norm2pi
    rw [sub_zero, if_neg (not_lt.mpr (by positivity))]
  exact C2_occluded_bearing_turn exPaths exPos stateOccluded "b" (by decide)
    rfl rfl (π / 2) (shortest_path_action exPaths exPos stateOccluded "b")
    hbear.symm rfl

/-! Helper lemmas for the minibatch cursor. -/

theorem next_minibatch_mid (shuffle sortFn : List Task → List Task)
    (bs : ℕ) (s : BatchState) (h : bs ≤ s.data.length - s.ix) :
    next_minibatch shuffle sortFn bs false s
      = ((s.data.drop s.ix).take bs, BatchState.mk s.data (s.ix + bs)) := by
  have hlen : ((s.data.drop s.ix).take bs).length = bs := by
    rw [List.length_take, List.length_drop]
    exact min_eq_left h
  simp only [next_minibatch, hlen, lt_irrefl, if_false, Bool.false_eq_true]

theorem next_minibatch_wrap (shuffle sortFn : List Task → List Task)
    (bs : ℕ) (s : BatchState) (h : s.data.length - s.ix < bs) :
    next_minibatch shuffle sortFn bs false s
      = ((s.data.drop s.ix).take bs
          ++ (shuffle s.data).take (bs - (s.data.length - s.ix)),
        BatchState.mk (shuffle s.data) (bs - (s.data.length - s.ix))) := by
  have hlen : ((s.data.drop s.ix).take bs).length = s.data.length - s.ix := by
    rw [List.length_take, List.length_drop]
    exact min_eq_right (le_of_lt h)
  simp only [next_minibatch, hlen, h, if_true, Bool.false_eq_true, if_false]

/-- C6 as stated is false at the boundary cursor position `ix = N − batchSize`:
with pool `[t0, t1]` (N = 2), batch size 1 and `ix = 1` (which satisfies the
claim's epoch-wrap condition `ix ≥ N − batchSize`), `_next_minibatch` returns
the full slice `[t1]`, keeps the pool unshuffled and advances the cursor to
2, instead of reshuffling (here: reversing) the pool and resetting the cursor
to the remainder length 0 as the claim predicts. -/
theorem C6_counterexample :
    1 ≥ [Task.mk 0 0, Task.mk 1 0].length - 1 ∧
    next_minibatch List.reverse id 1 false
        (BatchState.mk [Task.mk 0 0, Task.mk 1 0] 1)
      = ([Task.mk 1 0], BatchState.mk [Task.mk 0 0, Task.mk 1 0] 2) ∧
    BatchState.mk [Task.mk 0 0, Task.mk 1 0] 2
      ≠ BatchState.mk (List.reverse [Task.mk 0 0, Task.mk 1 0]) 0 := by
  decide

/-- C6 amended: the mid-epoch state is `ix ≤ N − batchSize` (at least
`batchSize` tasks remain, `batchSize ≤ N − ix`): the call returns the slice
`data[ix : ix+batchSize]` and advances the cursor by `batchSize` without
reshuffling.  The epoch-wrap state is `N − ix < batchSize` (strictly fewer
than `batchSize` remain, i.e. `ix > N − batchSize`, not `ix ≥ N − batchSize`
as claimed): the call takes the leftover tasks, reshuffles the full pool,
appends the remainder from the front of the reshuffled pool and resets the
cursor to the remainder length. -/
theorem C6_amended_cursor_machine (shuffle sortFn : List Task → List Task)
    (bs : ℕ) (s : BatchState) :
    (bs ≤ s.data.length - s.ix →
      next_minibatch shuffle sortFn bs false s
        = ((s.data.drop s.ix).take bs, BatchState.mk s.data (s.ix + bs))) ∧
    (s.data.length - s.ix < bs →
      next_minibatch shuffle sortFn bs false s
        = ((s.data.drop s.ix).take bs
            ++ (shuffle s.data).take (bs - (s.data.length - s.ix)),
          BatchState.mk (shuffle s.data) (bs - (s.data.length - s.ix)))) :=
  ⟨next_minibatch_mid shuffle sortFn bs s, next_minibatch_wrap shuffle sortFn bs s⟩

/-- Witness for the amended C6: a mid-epoch call at the boundary cursor and a
wrap call on a concrete pool of three tasks with batch size 2. -/
theorem C6_amended_cursor_machine_witness :
    (2 ≤ [Task.mk 0 0, Task.mk 1 0, Task.mk 2 0].length - 0 ∧
      next_minibatch List.reverse id 2 false
          (BatchState.mk [Task.mk 0 0, Task.mk 1 0, Task.mk 2 0] 0)
        = ([Task.mk 0 0, Task.mk 1 0],
          BatchState.mk [Task.mk 0 0, Task.mk 1 0, Task.mk 2 0] 2)) ∧
    ([Task.mk 0 0, Task.mk 1 0, Task.mk 2 0].length - 2 < 2 ∧
      next_minibatch List.reverse id 2 false
          (BatchState.mk [Task.mk 0 0, Task.mk 1 0, Task.mk 2 0] 2)
        = ([Task.mk 2 0, Task.mk 2 0],
          BatchState.mk [Task.mk 2 0, Task.mk 1 0, Task.mk 0 0] 1)) :=
  ⟨⟨by decide,
      by
        have h := (C6_amended_cursor_machine List.reverse id 2
          (BatchState.mk [Task.mk 0 0, Task.mk 1 0, Task.mk 2 0] 0)).1
          (by decide)
        simpa using h⟩,
    ⟨by decide,
      by
        have h := (C6_amended_cursor_machine List.reverse id 2
          (BatchState.mk [Task.mk 0 0, Task.mk 1 0, Task.mk 2 0] 2)).2
          (by decide)
        simpa using h⟩⟩

theorem run_minibatches_mid (shuffle sortFn : List Task → List Task) (bs : ℕ) :
    ∀ (k : ℕ) (data : List Task) (ix : ℕ), ix + k * bs ≤ data.length →
      run_minibatches shuffle sortFn bs k (BatchState.mk data ix)
        = ((data.drop ix).take (k * bs), BatchState.mk data (ix + k * bs)) := by
  intro k
  induction k with
  | zero => intro data ix h; simp [run_minibatches]
  | succ k ih =>
      intro data ix h
      have hmul : (k + 1) * bs = k * bs + bs := by ring
      have hbs : bs ≤ data.length - ix := by omega
      unfold run_minibatches
      rw [next_minibatch_mid shuffle sortFn bs (BatchState.mk data ix) hbs]
      simp only
      rw [ih data (ix + bs) (by omega)]
      simp only [Prod.mk.injEq]
      constructor
      · rw [show (k + 1) * bs = bs + k * bs by ring, List.take_add,
          ← List.drop_drop]
      · rw [BatchState.mk.injEq]
        exact ⟨rfl, by omega⟩

theorem run_minibatches_add (shuffle sortFn : List Task → List Task) (bs : ℕ) :
    ∀ (m n : ℕ) (s : BatchState),
      run_minibatches shuffle sortFn bs (m + n) s
        = ((run_minibatches shuffle sortFn bs m s).1
            ++ (run_minibatches shuffle sortFn bs n
                  (run_minibatches shuffle sortFn bs m s).2).1,
          (run_minibatches shuffle sortFn bs n
            (run_minibatches shuffle sortFn bs m s).2).2) := by
  intro m
  induction m with
  | zero => intro n s; simp [run_minibatches]
  | succ m ih =>
      intro n s
      rw [show m + 1 + n = (m + n) + 1 by ring]
      have hstep1 : run_minibatches shuffle sortFn bs (m + n + 1) s
          = ((next_minibatch shuffle sortFn bs false s).1
              ++ (run_minibatches shuffle sortFn bs (m + n)
                    (next_minibatch shuffle sortFn bs false s).2).1,
            (run_minibatches shuffle sortFn bs (m + n)
              (next_minibatch shuffle sortFn bs false s).2).2) := rfl
      have hstep2 : run_minibatches shuffle sortFn bs (m + 1) s
          = ((next_minibatch shuffle sortFn bs false s).1
              ++ (run_minibatches shuffle sortFn bs m
                    (next_minibatch shuffle sortFn bs false s).2).1,
            (run_minibatches shuffle sortFn bs m
              (next_minibatch shuffle sortFn bs false s).2).2) := rfl
      rw [hstep1, hstep2, ih n (next_minibatch shuffle sortFn bs false s).2]
      simp [List.append_assoc]

/-- C7: with the cursor at 0, one epoch of `_next_minibatch` calls
(`⌈N/batchSize⌉` calls, written via `N = q·batchSize + r`) concatenates to a
task stream whose first `N` elements are exactly the pool in order — so with
distinct tasks every task is enumerated exactly once before any repeat — and
mid-epoch calls never change the pool order (the wraparound reshuffle is the
only source of order change). -/
theorem C7_epoch_enumeration (shuffle sortFn : List Task → List Task)
    (bs : ℕ) (data : List Task) (q r : ℕ)
    (_hbs : 0 < bs) (hlen : data.length = q * bs + r) (hr : r < bs) :
    ((run_minibatches shuffle sortFn bs (if r = 0 then q else q + 1)
        (BatchState.mk data 0)).1).take data.length = data ∧
    (data.Nodup → ∀ a ∈ data,
      (((run_minibatches shuffle sortFn bs (if r = 0 then q else q + 1)
          (BatchState.mk data 0)).1).take data.length).count a = 1) ∧
    (∀ s : BatchState, bs ≤ s.data.length - s.ix →
      ((next_minibatch shuffle sortFn bs false s).2).data = s.data) := by
  have hmain : ((run_minibatches shuffle sortFn bs (if r = 0 then q else q + 1)
      (BatchState.mk data 0)).1).take data.length = data := by
    by_cases hr0 : r = 0
    · subst hr0
      rw [if_pos rfl,
        run_minibatches_mid shuffle sortFn bs q data 0 (by omega)]
      simp only [List.drop_zero]
      rw [List.take_take]
      rw [List.take_of_length_le (by omega)]
    · rw [if_neg hr0,
        run_minibatches_add shuffle sortFn bs q 1 (BatchState.mk data 0),
        run_minibatches_mid shuffle sortFn bs q data 0 (by omega)]
      simp only [List.drop_zero, Nat.zero_add]
      have hwrap : data.length - q * bs < bs := by omega
      unfold run_minibatches
      rw [next_minibatch_wrap shuffle sortFn bs (BatchState.mk data (q * bs))
        (by simpa using hwrap)]
      have htk : (data.drop (q * bs)).take bs = data.drop (q * bs) :=
        List.take_of_length_le (by rw [List.length_drop]; omega)
      rw [htk]
      simp only [run_minibatches, List.append_nil]
      rw [← List.append_assoc, List.take_append_drop]
      exact List.take_left data _
  refine ⟨hmain, fun hnd a ha => ?_, fun s hs => ?_⟩
  · rw [hmain]
    exact List.count_eq_one_of_mem hnd ha
  · rw [next_minibatch_mid shuffle sortFn bs s hs]

/-- Witness for C7: pool of three distinct tasks, batch size 2 (so q = 1,
r = 1, one epoch is two calls); the first three tasks of the produced stream
are the pool in order, each counted once. -/
theorem C7_epoch_enumeration_witness :
    0 < 2 ∧ [Task.mk 0 0, Task.mk 1 0, Task.mk 2 0].length = 1 * 2 + 1 ∧
    1 < 2 ∧
    ((run_minibatches List.reverse id 2 2
        (BatchState.mk [Task.mk 0 0, Task.mk 1 0, Task.mk 2 0] 0)).1).take 3
      = [Task.mk 0 0, Task.mk 1 0, Task.mk 2 0] :=
  ⟨by decide, by decide, by decide,
    (C7_epoch_enumeration List.reverse id 2
      [Task.mk 0 0, Task.mk 1 0, Task.mk 2 0] 1 1
      (by decide) (by decide) (by decide)).1⟩

theorem newEpisodesLoop_spec (beamed : Bool) :
    ∀ (ss vs : List String) (gs : List ℝ) (sims : List (List Sim)),
      ss.length = vs.length → gs.length = vs.length →
      ss.length = sims.length →
      (newEpisodesLoop beamed ss vs gs sims).1.length = ss.length ∧
      (newEpisodesLoop beamed ss vs gs sims).2.length = ss.length ∧
      ∀ i, i < ss.length →
        ∃ s v g beam,
          ss[i]? = some s ∧ vs[i]? = some v ∧ gs[i]? = some g ∧
          sims[i]? = some beam ∧
          (newEpisodesLoop beamed ss vs gs sims).1[i]?
            = some (if beamed then EpisodeEntry.beam [WorldState.mk s v g 0]
                else EpisodeEntry.single (WorldState.mk s v g 0)) ∧
          (newEpisodesLoop beamed ss vs gs sims).2[i]?
            = some (setSlot0 beam (WorldState.mk s v g 0)) := by
  intro ss
  induction ss with
  | nil =>
      intro vs gs sims h1 h2 h3
      cases vs with
      | cons v vs => simp at h1
      | nil =>
          cases gs with
          | cons g gs => simp at h2
          | nil =>
              cases sims with
              | cons b sims => simp at h3
              | nil => exact ⟨rfl, rfl, fun i hi => absurd hi (by simp)⟩
  | cons s ss ih =>
      intro vs gs sims h1 h2 h3
      cases vs with
      | nil => simp at h1
      | cons v vs =>
          cases gs with
          | nil =>
              rw [List.length_cons] at h2
              simp at h2
          | cons g gs =>
              cases sims with
              | nil => simp at h3
              | cons beam sims =>
                  obtain ⟨ihl1, ihl2, ihp⟩ := ih vs gs sims
                    (by simpa using h1) (by simpa using h2) (by simpa using h3)
                  refine ⟨by simpa [newEpisodesLoop] using ihl1,
                    by simpa [newEpisodesLoop] using ihl2, fun i hi => ?_⟩
                  cases i with
                  | zero =>
                      refine ⟨s, v, g, beam, List.getElem?_cons_zero,
                        List.getElem?_cons_zero, List.getElem?_cons_zero,
                        List.getElem?_cons_zero, ?_, ?_⟩ <;>
                        simp [newEpisodesLoop]
                  | succ i =>
                      obtain ⟨s', v', g', beam', hs', hv', hg', hb', he', hm'⟩ :=
                        ihp i (by simpa using hi)
                      exact ⟨s', v', g', beam',
                        by simpa using hs', by simpa using hv',
                        by simpa using hg', by simpa using hb',
                        by simpa [newEpisodesLoop] using he',
                        by simpa [newEpisodesLoop] using hm'⟩

/-- C8: under the precondition that the three input lists have length equal
to `batchSize` (and the invariant that there is one simulator beam per
agent), `newEpisodes` succeeds and returns exactly one initial pose per
agent — `WorldState(scan_i, viewpoint_i, heading_i, 0)` with elevation fixed
to 0, wrapped in a length-1 list exactly when `beamed` — loading it only
into that agent's beam-slot-0 simulator (`setSlot0` leaves every slot `j > 0`
untouched); when the lengths differ or do not match the simulator array the
call fails the assertion (`none`). -/
theorem C8_newEpisodes (env : EnvBatch) (scanIds viewpointIds : List String)
    (headings : List ℝ) (beamed : Bool)
    (hsims : env.sims.length = env.batch_size) :
    (scanIds.length = env.batch_size → viewpointIds.length = env.batch_size →
      headings.length = env.batch_size →
      ∃ entries env2,
        EnvBatch.newEpisodes env scanIds viewpointIds headings beamed
          = some (entries, env2) ∧
        entries.length = env.batch_size ∧
        env2.sims.length = env.batch_size ∧
        env2.batch_size = env.batch_size ∧ env2.beam_size = env.beam_size ∧
        (∀ i, i < env.batch_size →
          ∃ s v g beam,
            scanIds[i]? = some s ∧ viewpointIds[i]? = some v ∧
            headings[i]? = some g ∧ env.sims[i]? = some beam ∧
            entries[i]? = some (if beamed
                then EpisodeEntry.beam [WorldState.mk s v g 0]
                else EpisodeEntry.single (WorldState.mk s v g 0)) ∧
            env2.sims[i]? = some (setSlot0 beam (WorldState.mk s v g 0)))) ∧
    (¬ (scanIds.length = viewpointIds.length ∧
        headings.length = viewpointIds.length ∧
        scanIds.length = env.sims.length) →
      EnvBatch.newEpisodes env scanIds viewpointIds headings beamed = none) ∧
    (∀ (beam : List Sim) (w : WorldState) (j : ℕ), 0 < j →
      (setSlot0 beam w)[j]? = beam[j]?) ∧
    (∀ (beam : List Sim) (w : WorldState), beam ≠ [] →
      (setSlot0 beam w)[0]? = some (some w)) := by
  refine ⟨fun hl1 hl2 hl3 => ?_, fun hbad => ?_, fun beam w j hj => ?_,
    fun beam w hne => ?_⟩
  · have hcond : scanIds.length = viewpointIds.length ∧
        headings.length = viewpointIds.length ∧
        scanIds.length = env.sims.length := by omega
    obtain ⟨hL1, hL2, hL3⟩ := newEpisodesLoop_spec beamed scanIds viewpointIds
      headings env.sims (by omega) (by omega) (by omega)
    refine ⟨(newEpisodesLoop beamed scanIds viewpointIds headings env.sims).1,
      EnvBatch.mk
        (newEpisodesLoop beamed scanIds viewpointIds headings env.sims).2
        env.batch_size env.beam_size, ?_, by rw [hL1]; exact hl1,
      by rw [hL2]; exact hl1, rfl, rfl, fun i hi => ?_⟩
    · unfold EnvBatch.newEpisodes
      rw [if_pos hcond]
    · obtain ⟨s, v, g, beam, hs, hv, hg, hb, he, hm⟩ := hL3 i (by omega)
      exact ⟨s, v, g, beam, hs, hv, hg, hb, he, by simpa using hm⟩
  · unfold EnvBatch.newEpisodes
    rw [if_neg hbad]
  · cases beam with
    | nil => rfl
    | cons b rest =>
        cases j with
        | zero => omega
        | succ j => rfl
  · cases beam with
    | nil => exact absurd rfl hne
    | cons b rest => exact List.getElem?_cons_zero

/-- Witness for C8: a one-agent, one-beam environment succeeds on equal-length
singleton inputs and fails the assertion when the viewpoint list has length
2. -/
theorem C8_newEpisodes_witness :
    (EnvBatch.init 1 1).sims.length = (EnvBatch.init 1 1).batch_size ∧
    (∃ entries env2,
      EnvBatch.newEpisodes (EnvBatch.init 1 1) ["sc"] ["vp"] [0] false
        = some (entries, env2) ∧ entries.length = 1) ∧
    EnvBatch.newEpisodes (EnvBatch.init 1 1) ["sc"] ["vp", "vq"] [0] false
      = none := by
  have hsims : (EnvBatch.init 1 1).sims.length = (EnvBatch.init 1 1).batch_size :=
    rfl
  refine ⟨hsims, ?_, ?_⟩
  · obtain ⟨entries, env2, heq, hlen, _⟩ :=
      (C8_newEpisodes (EnvBatch.init 1 1) ["sc"] ["vp"] [0] false hsims).1
        rfl rfl rfl
    exact ⟨entries, env2, heq, hlen⟩
  · exact (C8_newEpisodes (EnvBatch.init 1 1) ["sc"] ["vp", "vq"] [0] false
      hsims).2.1 (by decide)

theorem makeSimpleAction_char (i : ℤ) :
    makeSimpleAction i
      = if i ∈ ([0, 1, 2, 3, 4] : List ℤ) then some (simpleActionSpec i)
        else none := by
  unfold makeSimpleAction simpleActionSpec
  by_cases h0 : i = 0
  · subst h0; simp
  · by_cases h1 : i = 1
    · subst h1; simp
    · by_cases h2 : i = 2
      · subst h2; simp
      · by_cases h3 : i = 3
        · subst h3; simp
        · by_cases h4 : i = 4
          · subst h4; simp
          · rw [if_neg h0, if_neg h1, if_neg h2, if_neg h3, if_neg h4,
              if_neg (by simp [h0, h1, h2, h3, h4])]

/-- C9: `makeSimpleActions` applies exactly the specification's 5-way map
{0 ↦ forward (1,0,0), 1 ↦ left (0,−1,0), 2 ↦ right (0,1,0),
3 ↦ up (0,0,1), 4 ↦ down (0,0,−1)} to each index, and any index outside
{0,…,4} anywhere in the batch makes the whole call exit fatally (`none`)
instead of returning a result. -/
theorem C9_simple_action_map (indices : List ℤ) :
    (∀ i : ℤ, i ∈ ([0, 1, 2, 3, 4] : List ℤ) →
      makeSimpleAction i = some (simpleActionSpec i)) ∧
    (∀ i : ℤ, i ∉ ([0, 1, 2, 3, 4] : List ℤ) → makeSimpleAction i = none) ∧
    ((∀ i ∈ indices, i ∈ ([0, 1, 2, 3, 4] : List ℤ)) →
      makeSimpleActions indices = some (indices.map simpleActionSpec)) ∧
    ((∃ i ∈ indices, i ∉ ([0, 1, 2, 3, 4] : List ℤ)) →
      makeSimpleActions indices = none) := by
  refine ⟨fun i hi => by rw [makeSimpleAction_char, if_pos hi],
    fun i hi => by rw [makeSimpleAction_char, if_neg hi], ?_, ?_⟩
  · induction indices with
    | nil => intro _; rfl
    | cons i rest ih =>
        intro hall
        have hhead : makeSimpleAction i = some (simpleActionSpec i) := by
          rw [makeSimpleAction_char, if_pos (hall i (List.mem_cons_self i rest))]
        have htail := ih (fun j hj => hall j (List.mem_cons_of_mem i hj))
        unfold makeSimpleActions
        rw [hhead, htail]
        rfl
  · induction indices with
    | nil =>
        intro hbad
        obtain ⟨i, hi, _⟩ := hbad
        exact absurd hi (List.not_mem_nil i)
    | cons i rest ih =>
        intro hbad
        obtain ⟨j, hj, hjbad⟩ := hbad
        rcases List.mem_cons.mp hj with hje | hjm
        · subst hje
          have hhead : makeSimpleAction j = none := by
            rw [makeSimpleAction_char, if_neg hjbad]
          unfold makeSimpleActions
          rw [hhead]
        · have htail : makeSimpleActions rest = none := ih ⟨j, hjm, hjbad⟩
          unfold makeSimpleActions
          rw [htail]
          cases makeSimpleAction i <;> rfl

/-- Witness for C9: the batch `[0,1,2,3,4]` maps to the five primitive
tuples, and a batch containing the invalid index 5 exits fatally. -/
theorem C9_simple_action_map_witness :
    makeSimpleActions [0, 1, 2, 3, 4]
      = some [(1, 0, 0), (0, -1, 0), (0, 1, 0), (0, 0, 1), (0, 0, -1)] ∧
    makeSimpleActions [0, 5] = none :=
  ⟨(C9_simple_action_map [0, 1, 2, 3, 4]).2.2.1 (by decide),
    (C9_simple_action_map [0, 5]).2.2.2 ⟨5, by decide, by decide⟩⟩

/-- C10: `set_beam_size` is idempotent — when the requested beam size equals
the current one the state (in particular the `EnvBatch`) is returned
unchanged, and a fresh `EnvBatch` with `batch_size` beams of `beam_size`
simulators is built exactly when the requested size differs or no beam size
has been set yet. -/
theorem C10_set_beam_size_idempotent (r : R2RBatchState) (b : ℕ) :
    (r.beam_size = some b → set_beam_size r b = r) ∧
    (r.beam_size ≠ some b →
      (set_beam_size r b).batch_size = r.batch_size ∧
      (set_beam_size r b).beam_size = some b ∧
      (set_beam_size r b).env = some (EnvBatch.init r.batch_size b) ∧
      (EnvBatch.init r.batch_size b).sims.length = r.batch_size ∧
      ∀ beam ∈ (EnvBatch.init r.batch_size b).sims, beam.length = b) := by
  constructor
  · intro h
    unfold set_beam_size
    rw [h]
    simp
  · intro h
    have hlen : (EnvBatch.init r.batch_size b).sims.length = r.batch_size := by
      simp [EnvBatch.init]
    have hmem : ∀ beam ∈ (EnvBatch.init r.batch_size b).sims,
        beam.length = b := by
      intro beam hb
      rw [List.eq_of_mem_replicate hb]
      simp
    rcases hbs : r.beam_size with _ | b'
    · unfold set_beam_size
      rw [hbs]
      exact ⟨rfl, rfl, rfl, hlen, hmem⟩
    · have hne : ¬ b = b' := fun he => h (by rw [hbs, he])
      unfold set_beam_size
      rw [hbs]
      rw [if_pos (by simp [hne])]
      exact ⟨rfl, rfl, rfl, hlen, hmem⟩

/-- Witness for C10: requesting the current beam size 2 is a no-op; requesting
3 (and requesting any size when none is set) rebuilds the environment. -/
theorem C10_set_beam_size_idempotent_witness :
    (set_beam_size (R2RBatchState.mk 4 (some 2) none) 2
      = R2RBatchState.mk 4 (some 2) none) ∧
    ((set_beam_size (R2RBatchState.mk 4 (some 2) none) 3).env
      = some (EnvBatch.init 4 3) ∧
      (EnvBatch.init 4 3).sims.length = 4) :=
  ⟨(C10_set_beam_size_idempotent (R2RBatchState.mk 4 (some 2) none) 2).1 rfl,
    ⟨((C10_set_beam_size_idempotent (R2RBatchState.mk 4 (some 2) none) 3).2
        (by decide)).2.2.1,
      ((C10_set_beam_size_idempotent (R2RBatchState.mk 4 (some 2) none) 3).2
        (by decide)).2.2.2.1⟩⟩

end R2REnv
